import Mathlib

/- Verification of the redis-client-cache core (RedisCacheClient, its
connection manager and helpers) against its specification. The embedding
below translates the TypeScript source into pure Lean functions: the local
cache, the record returned by mget, and the backing store content are
association lists; asynchronous store round-trips become explicit
parameters (the store content, or an injected transport error); commands
issued on the data session are recorded as a trace. -/

namespace RedisClientCache

/-- Content of one local-cache slot: a real cached value, or the
CACHING_IN_PROGRESS sentinel marking an in-flight fetch (Cache.ts line 41). -/
inductive Slot (V : Type) where
  | val (v : V)
  | inProgress
deriving DecidableEq

/-- Value stored in the record returned by mget: either a proper value
(from a local hit or deserialization), or a raw serialized payload as it
came back from the store. The raw form is reachable in the source through
the untyped coalescing assignment on line 237,
result[key] = cachedValue ?? cachedItem ?? undefined. -/
inductive RVal (V E : Type) where
  | ofV (v : V)
  | raw (e : E)
deriving DecidableEq

/-- Events observable from the orchestrator: emitted error events, the
reconnecting event, and graceful quits of the two sessions. -/
inductive Ev where
  | errorEv (msg : String)
  | reconnectingEv
  | quitData
  | quitInv
deriving DecidableEq

/-- Errors thrown by the orchestrator (utils/errors.ts). -/
inductive CacheErr where
  | notReady
  | missingClientId
  | pingError
deriving DecidableEq

/-- Commands issued on the data session, recorded as a trace. -/
inductive StoreCmd (E : Type) where
  | setCmd (key : String) (value : E) (exSeconds : ℚ)
  | touchCmd (ks : List String)
  | mgetCmd (ks : List String)
  | delCmd (ks : List String)
  | keysCmd (pat : String)
  | scanCmd (pat : String) (count : ℕ)
deriving DecidableEq

/-- Lookup in an association list; the first binding for a key wins. -/
def alistGet {α : Type} : List (String × α) → String → Option α
  | [], _ => none
  | (k2, v) :: rest, k => if k2 == k then some v else alistGet rest k

/-- Insert or replace a binding in an association list. -/
def alistSet {α : Type} (l : List (String × α)) (k : String) (v : α) :
    List (String × α) :=
  (k, v) :: l.filter (fun p => p.1 != k)

/-- Remove a binding from an association list. -/
def alistDel {α : Type} (l : List (String × α)) (k : String) :
    List (String × α) :=
  l.filter (fun p => p.1 != k)

/-- State of one RedisCacheClient orchestrator instance: the normalized
key namespace, the two readiness flags, the local cache content, the
serializer pair, the clamped default TTL in seconds, and the configured
scan batch size. -/
structure Client (V E : Type) where
  pfx : String
  connected : Bool
  reconnecting : Bool
  cache : List (String × Slot V)
  ser : V → E
  de : E → V
  ttlSec : ℚ
  scanCount : ℕ

/-- isReady (lines 350-354): the readiness predicate; operations gated on
it throw NotReady when it is false. -/
def isReady {V E : Type} (c : Client V E) : Bool :=
  c.connected && !c.reconnecting

/-- generateKey (lines 154-156): logical key to physical key. -/
def generateKey {V E : Type} (c : Client V E) (key : String) : String :=
  c.pfx ++ key

/-- getTtlFromString (lines 346-348), after the external ms() parse: the
argument is the parsed duration in milliseconds, the result is
Math.max(msValue, 1000) / 1000 seconds. -/
def getTtlFromString (msValue : ℕ) : ℚ :=
  (if msValue ≤ 1000 then (1000 : ℚ) else (msValue : ℚ)) / 1000

/-- Constructor (lines 55-73): merge over defaults is done by the caller;
here the namespace separator is appended when missing and the default TTL
is clamped once. -/
def mkClient {V E : Type} (pfxArg : String) (ttlMs : ℕ) (ser : V → E)
    (de : E → V) (scanCount : ℕ) : Client V E :=
  { pfx := if pfxArg.endsWith ":" then pfxArg else pfxArg ++ ":"
    connected := false
    reconnecting := false
    cache := []
    ser := ser
    de := de
    ttlSec := getTtlFromString ttlMs
    scanCount := scanCount }

/-- Reading the record an mget call returns, with the access semantics of
a JS object: a missing property and a property set to undefined both read
as undefined (none). -/
def recGet {V E : Type} (r : List (String × Option (RVal V E)))
    (k : String) : Option (RVal V E) :=
  (alistGet r k).join

/-- First, synchronous loop of mget (lines 201-215): walk the logical and
physical key pairs in order; record local hits, record undefined for keys
whose slot holds the in-flight marker, and otherwise mark the key in
progress while collecting its physical key for the batched read. -/
def mgetPhase1 {V E : Type} :
    List (String × String) → List (String × Slot V) →
    List (String × Option (RVal V E)) → List String →
    List (String × Option (RVal V E)) × List String × List (String × Slot V)
  | [], cache, r, u => (r, u, cache)
  | (k, fk) :: rest, cache, r, u =>
    match alistGet cache fk with
    | some (Slot.val v) => mgetPhase1 rest cache (alistSet r k (some (RVal.ofV v))) u
    | some Slot.inProgress => mgetPhase1 rest cache (alistSet r k none) u
    | none => mgetPhase1 rest (alistSet cache fk Slot.inProgress) r (u ++ [fk])

/-- Second loop of mget (lines 229-249), run after the batched store read
succeeds. Faithful to the source: the loop runs over the indices of
uncachedKeys, but keys[i] and fullKeys[i] index the original argument
list, while cachedValues[i] indexes the reply to the batched read. -/
def mgetPhase2 {V E : Type} (de : E → V) (keysArg fullKeys : List String)
    (vals : List (Option E)) :
    List String → ℕ →
    List (String × Option (RVal V E)) → List (String × Slot V) →
    List (String × Option (RVal V E)) × List (String × Slot V)
  | [], _, r, cache => (r, cache)
  | _ :: rest, i, r, cache =>
    let key := keysArg.getD i ""
    let fullKey := fullKeys.getD i ""
    let cv := vals.getD i none
    match alistGet cache fullKey with
    | some Slot.inProgress =>
      match cv with
      | some e =>
        mgetPhase2 de keysArg fullKeys vals rest (i + 1)
          (alistSet r key (some (RVal.ofV (de e))))
          (alistSet cache fullKey (Slot.val (de e)))
      | none =>
        mgetPhase2 de keysArg fullKeys vals rest (i + 1)
          (alistSet r key none) (alistDel cache fullKey)
    | some (Slot.val w) =>
      mgetPhase2 de keysArg fullKeys vals rest (i + 1)
        (alistSet r key (match cv with
          | some e => some (RVal.raw e)
          | none => some (RVal.ofV w))) cache
    | none =>
      mgetPhase2 de keysArg fullKeys vals rest (i + 1)
        (alistSet r key (match cv with
          | some e => some (RVal.raw e)
          | none => none)) cache

/-- Error path of mget (lines 250-257): on a failed batched read the code
deletes fullKeys[i] and assigns undefined to keys[i] for every index
below the length of uncachedKeys, again mixing the two index spaces. -/
def mgetFailLoop {V E : Type} (keysArg fullKeys : List String) :
    List String → ℕ →
    List (String × Option (RVal V E)) → List (String × Slot V) →
    List (String × Option (RVal V E)) × List (String × Slot V)
  | [], _, r, cache => (r, cache)
  | _ :: rest, i, r, cache =>
    mgetFailLoop keysArg fullKeys rest (i + 1)
      (alistSet r (keysArg.getD i "") none)
      (alistDel cache (fullKeys.getD i ""))

/-- Result of one mget call: the returned record, the local cache after
the call, the events emitted during the call, and the batch of physical
keys sent to the store (none when no store read was issued). -/
structure MgetRes (V E : Type) where
  record : List (String × Option (RVal V E))
  cache : List (String × Slot V)
  events : List Ev
  issued : Option (List String)
deriving DecidableEq

/-- mget (lines 192-260). The backing store content is the association
list from physical keys to serialized payloads; storeErr = some msg
models the batched read rejecting with that transport error. -/
def mget {V E : Type} (c : Client V E) (store : List (String × E))
    (storeErr : Option String) (keysArg : List String) :
    Except CacheErr (MgetRes V E) :=
  if isReady c then
    let fullKeys := keysArg.map (generateKey c)
    match mgetPhase1 (keysArg.zip fullKeys) c.cache [] [] with
    | (r, uncached, cache1) =>
      if uncached.isEmpty then Except.ok ⟨r, cache1, [], none⟩
      else
        match storeErr with
        | some msg =>
          match mgetFailLoop keysArg fullKeys uncached 0 r cache1 with
          | (r2, cache2) => Except.ok ⟨r2, cache2, [Ev.errorEv msg], some uncached⟩
        | none =>
          let vals := uncached.map (alistGet store)
          match mgetPhase2 c.de keysArg fullKeys vals uncached 0 r cache1 with
          | (r2, cache2) => Except.ok ⟨r2, cache2, [], some uncached⟩
  else Except.error CacheErr.notReady

/-- Result of one mset call: local cache and store after the call, plus
the trace of commands issued on the data session. -/
structure MsetRes (V E : Type) where
  cache : List (String × Slot V)
  store : List (String × E)
  cmds : List (StoreCmd E)
deriving DecidableEq

/-- mset (lines 165-186): gate on readiness, no-op on zero entries,
resolve the TTL, serialize and optimistically write each entry to the
local cache, then issue one SET per entry with the EX ttl followed by a
TOUCH of all written physical keys. The ttlOpt argument is the parsed
milliseconds of options.ttl when supplied. -/
def mset {V E : Type} (c : Client V E) (store : List (String × E))
    (entries : List (String × V)) (ttlOpt : Option ℕ) :
    Except CacheErr (MsetRes V E) :=
  if isReady c then
    if entries.length = 0 then Except.ok ⟨c.cache, store, []⟩
    else
      let ex : ℚ :=
        match ttlOpt with
        | some t => getTtlFromString t
        | none => c.ttlSec
      let serialized := entries.map (fun kv => (generateKey c kv.1, c.ser kv.2))
      let cache1 := entries.foldl
        (fun cc kv => alistSet cc (generateKey c kv.1) (Slot.val kv.2)) c.cache
      let store1 := serialized.foldl (fun st kv => alistSet st kv.1 kv.2) store
      Except.ok ⟨cache1, store1,
        serialized.map (fun kv => StoreCmd.setCmd kv.1 kv.2 ex)
          ++ [StoreCmd.touchCmd (serialized.map Prod.fst)]⟩
  else Except.error CacheErr.notReady

/-- set (lines 188-190): mset of a single entry. -/
def setOp {V E : Type} (c : Client V E) (store : List (String × E))
    (k : String) (v : V) (ttlOpt : Option ℕ) : Except CacheErr (MsetRes V E) :=
  mset c store [(k, v)] ttlOpt

/-- get (lines 262-265): mget of one key, then result[key] ?? null. The
first component of the pair is the T or null return (none models null). -/
def getOp {V E : Type} (c : Client V E) (store : List (String × E))
    (storeErr : Option String) (k : String) :
    Except CacheErr (Option (RVal V E) × MgetRes V E) :=
  (mget c store storeErr [k]).map (fun m => (recGet m.record k, m))

/-- mdel (lines 267-277): one DEL of all physical keys at the store, then
a local delete of each. -/
def mdel {V E : Type} (c : Client V E) (store : List (String × E))
    (keysArg : List String) :
    Except CacheErr (List (String × Slot V) × List (String × E)) :=
  if isReady c then
    let fullKeys := keysArg.map (generateKey c)
    let store1 := store.filter (fun kv => !(fullKeys.contains kv.1))
    let cache1 := fullKeys.foldl alistDel c.cache
    Except.ok ⟨cache1, store1⟩
  else Except.error CacheErr.notReady

/-- delete (lines 279-281): mdel of one key. -/
def deleteOp {V E : Type} (c : Client V E) (store : List (String × E))
    (k : String) :
    Except CacheErr (List (String × Slot V) × List (String × E)) :=
  mdel c store [k]

/-- Glob matching as the backing store applies it to KEYS patterns and to
SCAN MATCH patterns, for the star and question-mark wildcards (the only
forms this client generates). A star matches an arbitrary part of the
remaining key. -/
def globMatch : List Char → List Char → Bool
  | [], s => s.isEmpty
  | p :: ps, s =>
    if p == '*' then s.tails.any (fun t => globMatch ps t)
    else
      match s with
      | [] => false
      | ch :: cs => (p == '?' || p == ch) && globMatch ps cs

/-- Plain boolean prefix test on character lists. -/
def listIsPrefixOf : List Char → List Char → Bool
  | [], _ => true
  | _ :: _, [] => false
  | a :: ps, ch :: cs => a == ch && listIsPrefixOf ps cs

/-- True when a pattern holds no glob wildcard. -/
def noWild : List Char → Bool
  | [] => true
  | ch :: rest => !(ch == '*' || ch == '?') && noWild rest

/-- Result of one clear call: the store after the deletion, the local
cache after the call, and the trace of commands issued. -/
structure ClearRes (V E : Type) where
  store : List (String × E)
  cache : List (String × Slot V)
  cmds : List (StoreCmd E)
deriving DecidableEq

/-- clear (lines 283-293): a single KEYS command with the instance
pattern, one DEL of everything found when nonempty, then a full
local-cache clear. The enumeration is one KEYS call, not a cursor-based
SCAN. -/
def clear {V E : Type} (c : Client V E) (store : List (String × E)) :
    Except CacheErr (ClearRes V E) :=
  if isReady c then
    let pat := c.pfx ++ "*"
    let found := (store.map Prod.fst).filter (fun k => globMatch pat.data k.data)
    let store1 := store.filter (fun kv => !(found.contains kv.1))
    Except.ok ⟨store1, [],
      StoreCmd.keysCmd pat ::
        (if found.length = 0 then [] else [StoreCmd.delCmd found])⟩
  else Except.error CacheErr.notReady

/-- keys (lines 295-311): a paginated scan restricted to the namespace
with the configured batch size, deduplicated, with the namespace stripped
from each result. The iteration order of the deduplicated set is not
modeled precisely. -/
def keysOp {V E : Type} (c : Client V E) (store : List (String × E))
    (pat : String) : Except CacheErr (List String × List (StoreCmd E)) :=
  if isReady c then
    let pWithP := generateKey c pat
    let found := (store.map Prod.fst).filter (fun k => globMatch pWithP.data k.data)
    Except.ok ⟨(found.map (fun k => k.drop c.pfx.length)).dedup,
      [StoreCmd.scanCmd pWithP c.scanCount]⟩
  else Except.error CacheErr.notReady

/-- ttl (lines 313-325). The store model here does not track remaining
expirations, so ttlReply supplies the answer of the TTL query for the
physical key; the reply -2 means the key does not exist and proactively
evicts the local mirror entry. -/
def ttlOp {V E : Type} (c : Client V E) (ttlReply : Int) (k : String) :
    Except CacheErr (Int × List (String × Slot V)) :=
  if isReady c then
    let fullKey := generateKey c k
    if ttlReply = -2 then Except.ok ⟨ttlReply, alistDel c.cache fullKey⟩
    else Except.ok ⟨ttlReply, c.cache⟩
  else Except.error CacheErr.notReady

/-- Presence of the two redis client objects inside the connection
manager. -/
structure Sessions where
  dataPresent : Bool
  invPresent : Bool
deriving DecidableEq

/-- closeClients (RedisConnectionManager): quit each session only when it
is present, so an absent session on either side is tolerated. -/
def closeClients (s : Sessions) : List Ev :=
  (if s.dataPresent then [Ev.quitData] else [])
    ++ (if s.invPresent then [Ev.quitInv] else [])

/-- close (lines 327-332): the readiness gate runs first, then
closeClients, then the client is marked disconnected and the local cache
is cleared. -/
def close {V E : Type} (c : Client V E) (s : Sessions) :
    Except CacheErr (Client V E × List Ev) :=
  if isReady c then
    Except.ok ⟨{ c with connected := false, cache := [] }, closeClients s⟩
  else Except.error CacheErr.notReady

/-- setLocal (lines 334-336): writes only to the local cache. The source
has no readiness gate on this operation. -/
def setLocal {V E : Type} (c : Client V E) (k : String) (v : V) :
    Client V E :=
  { c with cache := alistSet c.cache (generateKey c k) (Slot.val v) }

/-- handleClientError (lines 119-122): emit the error, then clear the
entire local cache. -/
def handleClientError {V E : Type} (c : Client V E) (msg : String) :
    Client V E × List Ev :=
  ({ c with cache := [] }, [Ev.errorEv msg])

/-- handleInvalidation (lines 158-163): each key named by a non-null
invalidation batch is deleted from the local cache. -/
def handleInvalidation {V E : Type} (c : Client V E) (ks : List String) :
    Client V E :=
  { c with cache := ks.foldl alistDel c.cache }

/-- Handlers wired onto one redis client in utils/util.ts: the error
handler and the connection-lost handler, the latter attached to both the
end and the close event. -/
structure WiredEvents (H L : Type) where
  onErr : H
  onEnd : L
  onCloseEv : L

/-- The wiring function of utils/util.ts. -/
def wireClientEvents {H L : Type} (h : H) (l : L) : WiredEvents H L :=
  ⟨h, l, l⟩

/-- The connection manager wires the data session and the invalidation
session with the same orchestrator handlers (RedisConnectionManager
constructor); the connection-lost handler is abstract here. -/
def connectionWiring (V E : Type) :
    WiredEvents (Client V E → String → Client V E × List Ev) Unit ×
      WiredEvents (Client V E → String → Client V E × List Ev) Unit :=
  (wireClientEvents handleClientError (), wireClientEvents handleClientError ())

/-- Concrete client at V = E = Nat for concrete evaluations: serialize
adds 1000, deserialize subtracts it, the default prefix and defaults of
config.ts. -/
def natClient : Client ℕ ℕ :=
  { pfx := "cache:"
    connected := true
    reconnecting := false
    cache := []
    ser := fun v => v + 1000
    de := fun e => e - 1000
    ttlSec := 3600
    scanCount := 10000 }

/-- The same client after losing its connection. -/
def natClientClosed : Client ℕ ℕ :=
  { natClient with connected := false }

/-- Record lookup inside an mget outcome. -/
def mgetRecord {V E : Type} (x : Except CacheErr (MgetRes V E))
    (k : String) : Option (Option (RVal V E)) :=
  match x with
  | Except.ok m => some (recGet m.record k)
  | Except.error _ => none

/-- Local-cache lookup inside an mget outcome. -/
def mgetCacheAt {V E : Type} (x : Except CacheErr (MgetRes V E))
    (k : String) : Option (Option (Slot V)) :=
  match x with
  | Except.ok m => some (alistGet m.cache k)
  | Except.error _ => none

/-- Events emitted during an mget call. -/
def mgetEvents {V E : Type} (x : Except CacheErr (MgetRes V E)) :
    Option (List Ev) :=
  match x with
  | Except.ok m => some m.events
  | Except.error _ => none

/-- The batch of physical keys an mget call sent to the store. -/
def mgetIssued {V E : Type} (x : Except CacheErr (MgetRes V E)) :
    Option (Option (List String)) :=
  match x with
  | Except.ok m => some m.issued
  | Except.error _ => none

/-- The EX seconds of the first SET command an mset call issued. -/
def msetFirstEx {V E : Type} (x : Except CacheErr (MsetRes V E)) :
    Option ℚ :=
  match x with
  | Except.ok m =>
    match m.cmds with
    | StoreCmd.setCmd _ _ ex :: _ => some ex
    | _ => none
  | Except.error _ => none

/-- The command trace of a clear call. -/
def clearCmds {V E : Type} (x : Except CacheErr (ClearRes V E)) :
    Option (List (StoreCmd E)) :=
  match x with
  | Except.ok m => some m.cmds
  | Except.error _ => none

/-- Whether a command is a cursor-based scan. -/
def cmdIsScan {E : Type} : StoreCmd E → Bool
  | StoreCmd.scanCmd _ _ => true
  | _ => false

/-- The concrete client with one fresh local hit: logical key a is cached
with value 1. -/
def hitClient : Client ℕ ℕ :=
  { natClient with cache := [("cache:a", Slot.val 1)] }

/-- The concrete client observing an in-flight marker left by a
concurrent fetch of logical key a. -/
def markerClient : Client ℕ ℕ :=
  { natClient with cache := [("cache:a", Slot.inProgress)] }

/-- Concrete mixed hit and miss batch: a is a local hit, b misses locally
and is present at the store with serialized payload 1002 (value 2). -/
def mixedRun : Except CacheErr (MgetRes ℕ ℕ) :=
  mget hitClient [("cache:b", 1002)] none ["a", "b"]

/-- Concrete mixed batch whose batched store read fails. -/
def failedRun : Except CacheErr (MgetRes ℕ ℕ) :=
  mget hitClient [] (some "boom") ["a", "b"]

/-- Concrete batch in which the first key carries a pre-existing
in-flight marker and the second key is fetched from the store. -/
def markerRun : Except CacheErr (MgetRes ℕ ℕ) :=
  mget markerClient [("cache:b", 1002)] none ["a", "b"]

/-- Concrete clear call over a store holding one key inside the namespace
and one outside it. -/
def clearRun : Except CacheErr (ClearRes ℕ ℕ) :=
  clear natClient [("cache:x", 7), ("other:y", 8)]

end RedisClientCache

namespace RedisClientCache

/-- Claim C1 (code bug): the spec requires each key marked in flight by
this call to be resolved from its own store reply, hits keeping their
values. In the concrete mixed batch (a is a fresh local hit with value 1,
b is a miss whose store payload is 1002), the second mget loop pairs the
reply of the only uncached key b with index 0 of the original key list:
the returned record maps the hit key a to the raw serialized payload of
b, and the marked key b is never resolved at all. -/
theorem mget_mixed_batch_resolution_bug :
    mgetRecord mixedRun "a" = some (some (RVal.raw 1002)) ∧
    mgetRecord mixedRun "b" = some none ∧
    mgetCacheAt mixedRun "cache:a" = some (some (Slot.val 1)) := by
  decide

/-- Claim C2 (code bug): the spec requires a failed batched read to clear
the in-flight marker for exactly the keys of the batch, leaving hit
entries and their returned values alone. In the concrete failed mixed
batch, the error path deletes the local entry of the hit key a, leaves
the in-flight marker of the batched key b in place, and overwrites the
returned value of a with undefined; the error is emitted and the call
still returns normally, as the spec says. -/
theorem mget_failed_batch_cleanup_bug :
    mgetCacheAt failedRun "cache:a" = some none ∧
    mgetCacheAt failedRun "cache:b" = some (some Slot.inProgress) ∧
    mgetRecord failedRun "a" = some none ∧
    mgetEvents failedRun = some [Ev.errorEv "boom"] := by
  decide

/-- Claim C3 (code bug): the spec requires that by the time an mget call
returns, the local cache holds for each key this call marked either the
fetched value or no entry. In the concrete mixed batch, the call itself
marks b (the issued batch is exactly the physical key of b), yet after
the call returns the slot of b still holds the in-flight marker, with no
fetch for b outstanding any more. -/
theorem mget_marker_outlives_call_bug :
    mgetIssued mixedRun = some (some ["cache:b"]) ∧
    mgetCacheAt mixedRun "cache:b" = some (some Slot.inProgress) := by
  decide

/-- Claim C4 (code bug): the spec requires a call that observes a
pre-existing in-flight marker to return absent for that key and leave the
marker alone. In the concrete run, a carries a marker set by a concurrent
fetch and b is fetched; the second loop pairs the reply of b with index 0,
sees the marker of a, deserializes the payload of b, overwrites the
marker of a with that foreign value, and returns it for a instead of
absent. The batched read itself correctly excluded a. -/
theorem mget_marker_overwritten_bug :
    mgetIssued markerRun = some (some ["cache:b"]) ∧
    mgetRecord markerRun "a" = some (some (RVal.ofV 2)) ∧
    mgetCacheAt markerRun "cache:a" = some (some (Slot.val 2)) := by
  decide

/-- Looking up the key just written into an association list yields the
written value. -/
@[simp] theorem alistGet_alistSet_self {α : Type} (l : List (String × α))
    (k : String) (v : α) : alistGet (alistSet l k v) k = some v := by
  simp [alistGet, alistSet]

/-- Reading the record entry just written yields the written value. -/
@[simp] theorem recGet_alistSet_self {V E : Type}
    (r : List (String × Option (RVal V E))) (k : String)
    (x : Option (RVal V E)) : recGet (alistSet r k x) k = x := by
  simp [recGet]

/-- Readiness only inspects the connection flags, so a cache update keeps
it unchanged. -/
@[simp] theorem isReady_update_cache {V E : Type} (c : Client V E)
    (l : List (String × Slot V)) :
    isReady { c with cache := l } = isReady c := rfl

/-- Claim C5: in Ready state, set of (k, v) writes the raw value to the
local cache under the physical key before any store round-trip, so the
immediately following get of k is served from the local cache and
returns v, whatever the store holds. -/
theorem set_then_get_returns_value {V E : Type} (c : Client V E)
    (store : List (String × E)) (k : String) (v : V) (ttlOpt : Option ℕ)
    (h : isReady c = true) :
    ∃ m, setOp c store k v ttlOpt = Except.ok m ∧
      ∃ g, getOp { c with cache := m.cache } m.store none k = Except.ok g ∧
        g.1 = some (RVal.ofV v) := by
  refine ⟨⟨alistSet c.cache (generateKey c k) (Slot.val v),
      alistSet store (generateKey c k) (c.ser v),
      [StoreCmd.setCmd (generateKey c k) (c.ser v)
          (match ttlOpt with
            | some t => getTtlFromString t
            | none => c.ttlSec),
        StoreCmd.touchCmd [generateKey c k]]⟩, ?_, ?_⟩
  · simp [setOp, mset, h]
  · refine ⟨(some (RVal.ofV v), ⟨alistSet [] k (some (RVal.ofV v)),
        alistSet c.cache (generateKey c k) (Slot.val v), [], none⟩), ?_, rfl⟩
    simp [getOp, mget, h, mgetPhase1, generateKey, Except.map]

/-- Witness for claim C5 at a concrete ready client. -/
theorem set_then_get_returns_value_witness :
    ∃ m, setOp natClient [] "a" 7 none = Except.ok m ∧
      ∃ g, getOp { natClient with cache := m.cache } m.store none "a" =
          Except.ok g ∧
        g.1 = some (RVal.ofV 7) :=
  set_then_get_returns_value natClient [] "a" 7 none (by decide)

/-- Claim C6 counterexample: setLocal carries no readiness gate. On a
concrete disconnected client it raises nothing and still performs its
local-cache write, contradicting the claim that every listed public
operation throws NotReady and performs no local-cache write unless the
state is Ready. -/
theorem setLocal_ignores_readiness :
    isReady natClientClosed = false ∧
    alistGet (setLocal natClientClosed "a" 5).cache "cache:a" =
      some (Slot.val 5) := by
  decide

/-- Claim C6 (amended): whenever the client state is not Ready, the
public operations set, mset, get, mget, delete, mdel, clear, keys and
ttl fail fast with the NotReady error, returning no new cache or store
state; setLocal is the exception and performs its local-cache write
regardless of the client state. -/
theorem ops_fail_fast_when_not_ready {V E : Type} (c : Client V E)
    (store : List (String × E)) (entries : List (String × V))
    (ttlOpt : Option ℕ) (k : String) (v : V) (ks : List String)
    (storeErr : Option String) (pat : String) (ttlReply : Int)
    (h : isReady c = false) :
    mset c store entries ttlOpt = Except.error CacheErr.notReady ∧
    setOp c store k v ttlOpt = Except.error CacheErr.notReady ∧
    mget c store storeErr ks = Except.error CacheErr.notReady ∧
    getOp c store storeErr k = Except.error CacheErr.notReady ∧
    mdel c store ks = Except.error CacheErr.notReady ∧
    deleteOp c store k = Except.error CacheErr.notReady ∧
    clear c store = Except.error CacheErr.notReady ∧
    keysOp c store pat = Except.error CacheErr.notReady ∧
    ttlOp c ttlReply k = Except.error CacheErr.notReady ∧
    setLocal c k v =
      { c with cache := alistSet c.cache (generateKey c k) (Slot.val v) } := by
  simp [mset, setOp, mget, getOp, mdel, deleteOp, clear, keysOp, ttlOp,
    setLocal, h, Except.map]

/-- Witness for the amended claim C6 at a concrete disconnected client. -/
theorem ops_fail_fast_when_not_ready_witness :
    mset natClientClosed [] [] none = Except.error CacheErr.notReady ∧
    setOp natClientClosed [] "a" 5 none = Except.error CacheErr.notReady ∧
    mget natClientClosed [] none ["a"] = Except.error CacheErr.notReady ∧
    getOp natClientClosed [] none "a" = Except.error CacheErr.notReady ∧
    mdel natClientClosed [] ["a"] = Except.error CacheErr.notReady ∧
    deleteOp natClientClosed [] "a" = Except.error CacheErr.notReady ∧
    clear natClientClosed [] = Except.error CacheErr.notReady ∧
    keysOp natClientClosed [] "*" = Except.error CacheErr.notReady ∧
    ttlOp natClientClosed 3 "a" = Except.error CacheErr.notReady ∧
    setLocal natClientClosed "a" 5 =
      { natClientClosed with
        cache := alistSet natClientClosed.cache
          (generateKey natClientClosed "a") (Slot.val 5) } :=
  ops_fail_fast_when_not_ready natClientClosed [] [] none "a" 5 ["a"] none
    "*" 3 (by decide)

/-- Some suffix of any string is empty, so a bare star pattern matches
everything. -/
theorem tails_any_isEmpty (s : List Char) :
    (s.tails.any fun t => t.isEmpty) = true := by
  induction s with
  | nil => rfl
  | cons a s ih => simp [List.tails_cons, ih]

/-- A wildcard-free pattern followed by a single star matches exactly the
keys that carry the pattern as a prefix. -/
theorem globMatch_append_star (p : List Char) (hp : noWild p = true) :
    ∀ s, globMatch (p ++ ['*']) s = listIsPrefixOf p s := by
  induction p with
  | nil =>
    intro s
    simp [globMatch, listIsPrefixOf, tails_any_isEmpty s]
  | cons a ps ih =>
    simp only [noWild, Bool.and_eq_true, Bool.not_eq_true',
      Bool.or_eq_false_iff] at hp
    intro s
    cases s with
    | nil => simp [globMatch, listIsPrefixOf, hp.1.1]
    | cons ch cs =>
      simp [globMatch, listIsPrefixOf, hp.1.1, hp.1.2, ih hp.2 cs]

/-- Claim C7 counterexample: at a concrete ready client with the default
prefix, the command trace of clear is one KEYS command with the instance
pattern followed by one DEL; no cursor-based SCAN command appears in the
trace, contradicting the claim that the enumeration is a paginated scan
with the configured batch size. -/
theorem clear_issues_keys_not_scan :
    clearCmds clearRun =
      some [StoreCmd.keysCmd "cache:*", StoreCmd.delCmd ["cache:x"]] ∧
    (clearCmds clearRun).map (fun l => l.any cmdIsScan) = some false := by
  decide

/-- Claim C7 (amended): clear in Ready state enumerates the physical keys
of this instance with a single unpaginated KEYS command on the namespace
pattern, deletes at the store exactly the keys carrying the namespace
(keys under other namespaces survive), and then clears the entire local
cache. -/
theorem clear_scoped_delete_full_local_clear {V E : Type} (c : Client V E)
    (store : List (String × E)) (h : isReady c = true)
    (hw : noWild c.pfx.data = true) :
    (clear c store).map ClearRes.cache = Except.ok [] ∧
    (clear c store).map ClearRes.store = Except.ok (store.filter
      (fun kv => !(listIsPrefixOf c.pfx.data kv.1.data))) ∧
    (clear c store).map (fun r => r.cmds.head?) =
      Except.ok (some (StoreCmd.keysCmd (c.pfx ++ "*"))) := by
  have hmatch : ∀ k2, globMatch (c.pfx ++ "*").data k2 =
      listIsPrefixOf c.pfx.data k2 := by
    intro k2
    have : (c.pfx ++ "*").data = c.pfx.data ++ ['*'] := by
      simp [String.data_append]
    rw [this, globMatch_append_star c.pfx.data hw k2]
  have hfound : ∀ kv, kv ∈ store →
      (((store.map Prod.fst).filter
          (fun k2 => globMatch (c.pfx ++ "*").data k2.data)).contains kv.1)
        = listIsPrefixOf c.pfx.data kv.1.data := by
    intro kv hkv
    rw [← hmatch kv.1.data]
    cases hg : globMatch (c.pfx ++ "*").data kv.1.data with
    | true =>
      simp only [List.contains, List.elem_eq_mem, decide_eq_true_eq]
      exact List.mem_filter.mpr ⟨List.mem_map_of_mem Prod.fst hkv, hg⟩
    | false =>
      simp only [List.contains, List.elem_eq_mem, decide_eq_false_iff_not]
      intro hmem
      have := (List.mem_filter.mp hmem).2
      rw [hg] at this
      exact Bool.false_ne_true this
  have hstores : store.filter (fun kv => !(((store.map Prod.fst).filter
        (fun k2 => globMatch (c.pfx ++ "*").data k2.data)).contains kv.1))
      = store.filter (fun kv => !(listIsPrefixOf c.pfx.data kv.1.data)) := by
    apply List.filter_congr
    intro kv hkv
    rw [hfound kv hkv]
  unfold clear
  rw [if_pos h]
  exact ⟨rfl, congrArg Except.ok hstores, rfl⟩

/-- Witness for the amended claim C7 at a concrete ready client. -/
theorem clear_scoped_delete_witness :
    (clear natClient [("cache:x", 7), ("other:y", 8)]).map ClearRes.cache
        = Except.ok [] ∧
    (clear natClient [("cache:x", 7), ("other:y", 8)]).map ClearRes.store
        = Except.ok ([("cache:x", 7), ("other:y", 8)].filter
          (fun kv => !(listIsPrefixOf natClient.pfx.data kv.1.data))) ∧
    (clear natClient [("cache:x", 7), ("other:y", 8)]).map
        (fun r => r.cmds.head?) =
      Except.ok (some (StoreCmd.keysCmd (natClient.pfx ++ "*"))) :=
  clear_scoped_delete_full_local_clear natClient
    [("cache:x", 7), ("other:y", 8)] (by decide) (by decide)

/-- Claim C8 counterexample: close runs the readiness gate first, so on a
client that is already closed (disconnected) it throws NotReady instead
of succeeding without error, whatever the session presence. -/
theorem close_throws_when_already_closed :
    isReady natClientClosed = false ∧
    close natClientClosed ⟨true, true⟩ = Except.error CacheErr.notReady :=
  ⟨by decide, rfl⟩

/-- Claim C8 (amended): in Ready state, close succeeds for every
combination of session presence — closeClients quits exactly the
sessions that are present, tolerating either or both being absent — and
leaves the client disconnected with the local cache cleared; but close on
a client that is not Ready (in particular one already closed) throws the
NotReady error. -/
theorem close_tolerates_absent_sessions {V E : Type} (c : Client V E)
    (s : Sessions) (h : isReady c = true) :
    close c s = Except.ok
      ({ c with connected := false, cache := [] },
        (if s.dataPresent then [Ev.quitData] else [])
          ++ (if s.invPresent then [Ev.quitInv] else [])) ∧
    (∀ c2 : Client V E, isReady c2 = false →
      close c2 s = Except.error CacheErr.notReady) := by
  constructor
  · simp [close, h, closeClients]
  · intro c2 h2
    simp [close, h2]

/-- Witness for the amended claim C8, closing a ready client whose
invalidation session is absent. -/
theorem close_tolerates_absent_sessions_witness :
    close natClient ⟨true, false⟩ = Except.ok
      ({ natClient with connected := false, cache := [] },
        (if (true : Bool) then [Ev.quitData] else [])
          ++ (if (false : Bool) then [Ev.quitInv] else [])) ∧
    (∀ c2 : Client ℕ ℕ, isReady c2 = false →
      close c2 ⟨true, false⟩ = Except.error CacheErr.notReady) :=
  close_tolerates_absent_sessions natClient ⟨true, false⟩ (by decide)

/-- Claim C9 counterexample: the source computes
Math.max(ms(ttl), 1000) / 1000 without rounding. For a supplied TTL of
1500 milliseconds (at least 1 second), the EX value mset sends to the
store is 3/2 seconds, whose denominator is 2 — not a whole number of
seconds as the claim states. -/
theorem ttl_not_whole_seconds :
    msetFirstEx (mset natClient [] [("a", 5)] (some 1500)) =
      some (3 / 2 : ℚ) ∧
    ((3 / 2 : ℚ)).den = 2 := by
  constructor
  · norm_num [mset, msetFirstEx, getTtlFromString, isReady, natClient,
      generateKey]
  · norm_num

/-- Claim C9 (amended): the TTL sent to the store is clamped to a minimum
of 1 second: any parsed TTL below 1000 milliseconds is stored as exactly
1 second, any TTL of at least 1000 milliseconds is stored unchanged as
t/1000 seconds (not necessarily whole), the clamped value is always at
least 1, and the EX seconds of the SET command mset issues for an
explicitly supplied TTL is exactly this clamped value. -/
theorem ttl_clamped_to_one_second (t : ℕ) :
    1 ≤ getTtlFromString t ∧
    (t < 1000 → getTtlFromString t = 1) ∧
    (1000 ≤ t → getTtlFromString t = (t : ℚ) / 1000) ∧
    (∀ {V E : Type} (c : Client V E) (store : List (String × E))
      (k : String) (v : V), isReady c = true →
      msetFirstEx (mset c store [(k, v)] (some t)) =
        some (getTtlFromString t)) := by
  refine ⟨?_, ?_, ?_, ?_⟩
  · rw [getTtlFromString, le_div_iff₀ (by norm_num : (0:ℚ) < 1000), one_mul]
    by_cases hc : t ≤ 1000
    · simp [hc]
    · simp only [hc, if_false]
      exact_mod_cast Nat.le_of_not_le hc
  · intro hlt
    rw [getTtlFromString, if_pos (Nat.le_of_lt hlt)]
    norm_num
  · intro hge
    rw [getTtlFromString]
    by_cases he : t = 1000
    · subst he
      norm_num
    · rw [if_neg (fun hc => he (Nat.le_antisymm hc hge))]
  · intro V E c store k v h
    simp [mset, msetFirstEx, h]

/-- Witness for the amended claim C9: the clamp at 500 ms and 2000 ms,
and the EX value of a concrete mset. -/
theorem ttl_clamped_to_one_second_witness :
    getTtlFromString 500 = 1 ∧
    getTtlFromString 2000 = (2000 : ℚ) / 1000 ∧
    msetFirstEx (mset natClient [] [("a", (5:ℕ))] (some 1500)) =
      some (getTtlFromString 1500) :=
  ⟨(ttl_clamped_to_one_second 500).2.1 (by norm_num),
    (ttl_clamped_to_one_second 2000).2.2.1 (by norm_num),
    (ttl_clamped_to_one_second 1500).2.2.2 natClient [] "a" 5 (by decide)⟩

/-- Claim C10: every transport-level error event of either session is
wired to handleClientError, which re-emits the error as a non-fatal error
event and clears the entire local cache, evicting every entry under every
key. -/
theorem client_error_clears_whole_cache {V E : Type} (c : Client V E)
    (msg : String) :
    (connectionWiring V E).1.onErr = handleClientError ∧
    (connectionWiring V E).2.onErr = handleClientError ∧
    (handleClientError c msg).2 = [Ev.errorEv msg] ∧
    ∀ k, alistGet (handleClientError c msg).1.cache k = none := by
  exact ⟨rfl, rfl, rfl, fun k => rfl⟩

end RedisClientCache
